import Mathlib

/-!
Verification of the weather-dashboard prototype (`meteo.py`): a shallow
embedding of `guess_columns`, `fetch_data_for_station`, and
`normalize_synop_df`, plus a spec-modelled daily reducer, with theorems
settling the specification claims.

Conventions of the embedding:
* Python floats are modelled as rationals (`ℚ`); `NaN` / missing values as
  `Option.none`.
* UTC instants are integers (minutes since an epoch); the `Europe/Paris`
  conversion performed by the external tz library is a parameter
  `tz : ℤ → ℤ` of the normalizer.
* A pandas `DataFrame` is a list of rows together with flags recording
  which columns are present in the frame.
* `pd.to_numeric(errors="coerce")` and `pd.to_datetime(errors="coerce")`
  are abstracted by the constructors of `RawVal` / `RawTs`: a raw cell is
  either a value the parser accepts or one it coerces to `NaN` / `NaT`.
* `st.error` side effects become an explicit list of reported messages;
  an uncaught Python exception becomes the `Except.error` case.
-/

/-- A raw cell value as seen by `pd.to_numeric(…, errors="coerce")`:
either a value parseable as a number, a value coerced to `NaN`, or a
missing value. -/
inductive RawVal where
  | numVal (q : ℚ)
  | badVal
  | absent
deriving DecidableEq, Repr

/-- Evaluation of `pd.to_numeric(x, errors="coerce")` on one cell. -/
def toNumeric : RawVal → Option ℚ
  | .numVal q => some q
  | .badVal => none
  | .absent => none

/-- A raw timestamp cell as seen by `pd.to_datetime(…, errors="coerce",
utc=True)`: either parseable as the UTC instant `t` or coerced to `NaT`. -/
inductive RawTs where
  | ts (t : ℤ)
  | bad
deriving DecidableEq, Repr

/-- Evaluation of `pd.to_datetime(x, errors="coerce", utc=True)` on one
cell. -/
def parseTs : RawTs → Option ℤ
  | .ts t => some t
  | .bad => none

/-- One raw record returned by the records endpoint, after the `select`
aliasing of `fetch_data_for_station`. -/
structure RawRow where
  date_utc : RawTs
  station_id : RawVal
  station_name : RawVal
  temperature_raw : RawVal
  rain_raw : RawVal
  wind_raw : RawVal
deriving DecidableEq, Repr

/-- A raw DataFrame: its rows plus which of the optional columns are
present (`"…" in df.columns` tests in `normalize_synop_df`). -/
structure RawFrame where
  hasDate : Bool
  hasStationId : Bool
  hasStationName : Bool
  hasTemp : Bool
  hasRain : Bool
  hasWind : Bool
  rows : List RawRow
deriving DecidableEq, Repr

/-- One normalized observation: a row of the frame built by
`normalize_synop_df`. -/
structure Obs where
  date_utc : Option ℤ
  date_local : Option ℤ
  station_id : RawVal
  station_name : RawVal
  temperature_C : Option ℚ
  pluie_brute : Option ℚ
  vent_brut : Option ℚ
deriving DecidableEq, Repr

/-- The Kelvin heuristic of line 229:
`t_raw.where(t_raw < 200, t_raw - 273.15)` applied cellwise
(for `NaN`, `NaN < 200` is false and `NaN - 273.15` is `NaN`). -/
def kelvinHeur (x : Option ℚ) : Option ℚ :=
  x.map (fun t => if t < 200 then t else t - 273.15)

/-- Normalization of a single row of `df` inside `normalize_synop_df`:
the row of `out` corresponding to one row of the input. -/
def normRow (tz : ℤ → ℤ) (f : RawFrame) (r : RawRow) : Obs :=
  let du := if f.hasDate then parseTs r.date_utc else none
  { date_utc := du
    date_local := du.map tz
    station_id := if f.hasStationId then r.station_id else .absent
    station_name := if f.hasStationName then r.station_name else .absent
    temperature_C := if f.hasTemp then kelvinHeur (toNumeric r.temperature_raw) else none
    pluie_brute := if f.hasRain then toNumeric r.rain_raw else none
    vent_brut := if f.hasWind then toNumeric r.wind_raw else none }

/-- Comparison on `date_local` used by `out.sort_values("date_local")`:
ascending, with missing timestamps (`NaT`) placed last
(pandas `na_position="last"`). -/
def optLE : Option ℤ → Option ℤ → Bool
  | some a, some b => a ≤ b
  | some _, none => true
  | none, some _ => false
  | none, none => true

/-- Row ordering of the normalized frame. -/
def obsLE (a b : Obs) : Prop := optLE a.date_local b.date_local = true

instance : DecidableRel obsLE := fun a b => by
  unfold obsLE; infer_instance

instance : IsTotal Obs obsLE := by
  constructor
  intro a b
  unfold obsLE optLE
  rcases a.date_local with _ | x <;> rcases b.date_local with _ | y <;> simp
  all_goals omega

instance : IsTrans Obs obsLE := by
  constructor
  intro a b c
  unfold obsLE optLE
  rcases a.date_local with _ | x <;> rcases b.date_local with _ | y <;>
    rcases c.date_local with _ | z <;> simp
  all_goals omega

/-- Embedding of `normalize_synop_df` (lines 203–246): early return on an
empty frame, otherwise per-row normalization followed by a sort on
`date_local`. -/
def normalize_synop_df (tz : ℤ → ℤ) (f : RawFrame) : List Obs :=
  match f.rows with
  | [] => []
  | _ :: _ => List.insertionSort obsLE (f.rows.map (normRow tz f))

theorem normalize_eq_sort (tz : ℤ → ℤ) (f : RawFrame) :
    normalize_synop_df tz f = List.insertionSort obsLE (f.rows.map (normRow tz f)) := by
  unfold normalize_synop_df
  match f.rows with
  | [] => rfl
  | _ :: _ => rfl

/-- ASCII lowering of one character, as Python `str.lower` acts on the
ASCII field names of this dataset. -/
def lcChar (c : Char) : Char :=
  if 'A' ≤ c ∧ c ≤ 'Z' then Char.ofNat (c.toNat + 32) else c

/-- ASCII model of Python `str.lower()`. -/
def pyLower (s : String) : String := String.mk (s.toList.map lcChar)

/-- Python `sub in fname`: substring containment test. -/
def containsSub (hay needle : String) : Bool :=
  (List.range (hay.toList.length + 1)).any
    (fun i => needle.toList.isPrefixOf (hay.toList.drop i))

/-- A single quote character, used to quote values in the `where` clause. -/
def sqch : String := String.singleton (Char.ofNat 39)

/-- A backtick character: the code backticks every field name it
interpolates into the query. -/
def bt : String := String.singleton (Char.ofNat 96)

/-- Zero-padding to two digits, as `strftime` `%m`/`%d`/`%H`/`%M`/`%S`. -/
def pad2 (n : ℕ) : String := if n < 10 then "0" ++ toString n else toString n

/-- Zero-padding to four digits, as `strftime` `%Y`. -/
def pad4 (n : ℕ) : String :=
  if n < 10 then "000" ++ toString n
  else if n < 100 then "00" ++ toString n
  else if n < 1000 then "0" ++ toString n
  else toString n

/-- A Python naive `datetime` value as the UI builds it. -/
structure DT where
  year : ℕ
  month : ℕ
  day : ℕ
  hour : ℕ
  minute : ℕ
  second : ℕ
deriving DecidableEq, Repr

/-- Evaluation of `dt.strftime("%Y-%m-%dT%H:%M:%SZ")` (lines 153–154). -/
def isoZ (d : DT) : String :=
  pad4 d.year ++ "-" ++ pad2 d.month ++ "-" ++ pad2 d.day ++ "T" ++
    pad2 d.hour ++ ":" ++ pad2 d.minute ++ ":" ++ pad2 d.second ++ "Z"

/-- One row of the schema DataFrame consumed by `guess_columns`; only the
technical field name is inspected. -/
structure SchemaField where
  name : String
deriving DecidableEq, Repr

/-- Embedding of the inner `find_field` of `guess_columns` (lines 76–85):
scan the fields in table order and return the first name whose lowercase
form contains one (or, with `must_all`, all) of the candidate
substrings. -/
def find_field (fields : List SchemaField) (subs : List String) (must_all : Bool) :
    Option String :=
  match fields with
  | [] => none
  | f :: rest =>
    let fname := pyLower f.name
    if must_all then
      if subs.all (fun s => containsSub fname s) then some f.name
      else find_field rest subs must_all
    else
      if subs.any (fun s => containsSub fname s) then some f.name
      else find_field rest subs must_all

/-- Python truthiness of an optional string: `None` and `""` are falsy. -/
def pyTruthy : Option String → Bool
  | none => false
  | some s => !s.isEmpty

/-- Python `a or b` on optional strings: `a` when truthy, else `b`. -/
def pyOr (a b : Option String) : Option String :=
  if pyTruthy a then a else b

/-- The column mapping returned by `guess_columns` for a non-empty
schema: exactly the six keys of lines 125–132. -/
structure ColsMap where
  date : Option String
  station_id : Option String
  station_name : Option String
  temp : Option String
  rain : Option String
  wind : Option String
deriving DecidableEq, Repr

/-- Embedding of `guess_columns` (lines 58–132). `none` models the empty
dict returned for an empty schema; otherwise the six-key mapping built by
the cascades of heuristic searches, including the refinement applied when
the station-id and station-name guesses coincide (lines 119–123). -/
def guess_columns (fields : List SchemaField) : Option ColsMap :=
  match fields with
  | [] => none
  | _ :: _ =>
    let date_col := find_field fields ["date", "time", "datetime"] false
    let station_id0 :=
      pyOr (find_field fields ["omm", "station", "id"] true)
        (pyOr (find_field fields ["omm", "station"] false)
          (pyOr (find_field fields ["station", "id"] false)
            (find_field fields ["omm"] false)))
    let station_name_col :=
      pyOr (find_field fields ["station", "name"] false)
        (find_field fields ["station"] false)
    let temp_col :=
      pyOr (find_field fields ["temp"] false)
        (find_field fields ["temperat"] false)
    let rain_col :=
      pyOr (find_field fields ["rain"] false)
        (pyOr (find_field fields ["pluie"] false)
          (find_field fields ["precip"] false))
    let wind_col :=
      pyOr (find_field fields ["wind"] false)
        (pyOr (find_field fields ["vent"] false)
          (find_field fields ["ff"] false))
    let station_id_col :=
      if station_id0 = station_name_col then
        let refine :=
          pyOr (find_field fields ["omm"] false) (find_field fields ["id"] false)
        if pyTruthy refine then refine else station_id0
      else station_id0
    some { date := date_col, station_id := station_id_col,
           station_name := station_name_col, temp := temp_col,
           rain := rain_col, wind := wind_col }

/-- The query parameters sent to the records endpoint. -/
structure Params where
  whereClause : String
  limit : ℕ
  orderBy : String
  select : String
deriving DecidableEq, Repr

/-- Embedding of the query-building half of `fetch_data_for_station`
(lines 139–182). The `cols_map` argument is the (possibly empty) dict
from `guess_columns`; `none` is returned exactly when the guard of
lines 145–147 reports a missing/falsy `date` or `station_id` column and
the function returns an empty DataFrame without issuing a request. -/
def buildParams (cm : Option ColsMap) (stationId : String)
    (start_dt end_dt : DT) (lim : ℕ) : Option Params :=
  match cm with
  | none => none
  | some c =>
    match c.date, c.station_id with
    | some dc, some ic =>
      if dc.isEmpty || ic.isEmpty then none
      else
        let start_iso := isoZ start_dt
        let end_iso := isoZ end_dt
        let whereC :=
          bt ++ ic ++ bt ++ " = " ++ sqch ++ stationId ++ sqch ++ " AND " ++
            bt ++ dc ++ bt ++ " >= " ++ sqch ++ start_iso ++ sqch ++ " AND " ++
            bt ++ dc ++ bt ++ " <= " ++ sqch ++ end_iso ++ sqch
        let parts :=
          [bt ++ dc ++ bt ++ " as date_utc", bt ++ ic ++ bt ++ " as station_id"] ++
            (match c.station_name with
             | some s => if s.isEmpty then [] else [bt ++ s ++ bt ++ " as station_name"]
             | none => []) ++
            (match c.temp with
             | some s => if s.isEmpty then [] else [bt ++ s ++ bt ++ " as temperature_raw"]
             | none => []) ++
            (match c.rain with
             | some s => if s.isEmpty then [] else [bt ++ s ++ bt ++ " as rain_raw"]
             | none => []) ++
            (match c.wind with
             | some s => if s.isEmpty then [] else [bt ++ s ++ bt ++ " as wind_raw"]
             | none => [])
        some { whereClause := whereC, limit := lim,
               orderBy := bt ++ dc ++ bt ++ " ASC",
               select := String.intercalate ", " parts }
    | _, _ => none

/-- Outcome of the `requests.get` call: either a raised transport
exception, or a response with a status, a URL, a body, and the result of
JSON-parsing the body (`none` when `r.json()` raises; the `results` key
defaulting to `[]` is folded into the parsed list). -/
inductive ReqResult where
  | netFail (msg : String)
  | resp (status : ℕ) (url : String) (body : String) (json : Option (List RawRow))

/-- The message formatted by `st.error` on a non-200 status
(lines 187–191): it embeds the HTTP status, the URL, and the first 500
characters of the response body. -/
def apiErrMsg (status : ℕ) (url body : String) : String :=
  "Erreur API mesures (HTTP " ++ toString status ++ ").\nURL: " ++ url ++
    "\nReponse: " ++ body.take 500

/-- The message formatted by `st.error` on an unreadable JSON body
(line 197). -/
def jsonErrMsg : String := "Reponse JSON illisible."

/-- Embedding of the response-handling half of `fetch_data_for_station`
(lines 184–200). The value is the list of DataFrame rows paired with the
list of messages reported via `st.error`; the `Except.error` case models
an exception propagating out of the function (only the transport
exception of `requests.get` does, since every handled failure returns an
empty DataFrame). -/
def fetchRespond : ReqResult → Except String (List RawRow × List String)
  | .netFail msg => .error msg
  | .resp status url body json =>
    if status ≠ 200 then .ok ([], [apiErrMsg status url body])
    else
      match json with
      | none => .ok ([], [jsonErrMsg])
      | some results => .ok (results, [])

/-- Modelled from the spec: a post-normalization Observation as §3 of the
spec describes it, for the Daily Reducer, which has no implementation
under `src/` (only the spec documents `reduceToDaily`). Local timestamps
are minutes since an epoch midnight in the fixed civil time zone. -/
structure SObs where
  timestamp_utc : ℤ
  timestamp_local : ℤ
deriving DecidableEq, Repr

/-- Modelled from the spec: the calendar day of an Observation, derived
from the date component of `timestamp_local`. -/
def calDay (o : SObs) : ℤ := o.timestamp_local.fdiv 1440

/-- Modelled from the spec: the local hour of day of an Observation. -/
def localHour (o : SObs) : ℤ := (o.timestamp_local.emod 1440).fdiv 60

/-- Modelled from the spec: the absolute difference in hours between the
local hour of an Observation and the target hour. -/
def hourDist (target : ℕ) (o : SObs) : ℕ := (localHour o - target).natAbs

/-- Modelled from the spec: one DailyObservation (§3). -/
structure DailyObs where
  calendar_day : ℤ
  chosen : SObs
  hour_distance : ℕ
deriving DecidableEq, Repr

/-- Modelled from the spec: the selection preference of §4.3 —
strictly smaller hour distance, or equal distance with strictly earlier
UTC timestamp. -/
def betterB (target : ℕ) (a b : SObs) : Bool :=
  hourDist target a < hourDist target b ||
    (hourDist target a == hourDist target b && a.timestamp_utc < b.timestamp_utc)

/-- Modelled from the spec: the preferred member of a non-empty candidate
group. -/
def bestOf (target : ℕ) (a : SObs) (l : List SObs) : SObs :=
  l.foldl (fun acc o => if betterB target o acc then o else acc) a

/-- Modelled from the spec: the DailyObservation emitted for one calendar
day, when that day has candidates. -/
def pickDay (target : ℕ) (obs : List SObs) (d : ℤ) : Option DailyObs :=
  match obs.filter (fun o => calDay o == d) with
  | [] => none
  | a :: l => some ⟨d, bestOf target a l, hourDist target (bestOf target a l)⟩

/-- Modelled from the spec: `reduceToDaily` (§4.3) — reject a target hour
outside [0,23] as `InvalidArgument`, group by calendar day, select the
preferred member of each group, and emit one DailyObservation per day in
ascending day order. -/
def reduceToDaily (obs : List SObs) (target : ℕ) : Except String (List DailyObs) :=
  if 23 < target then .error "InvalidArgument"
  else .ok ((List.insertionSort (fun a b : ℤ => a ≤ b) (obs.map calDay).dedup).filterMap
    (pickDay target obs))

/-- Modelled from the spec: the selection preorder — at most the hour
distance, with ties at most the UTC timestamp. The chosen member of a
group is a least element for this preorder. -/
def lexLE (target : ℕ) (a b : SObs) : Prop :=
  hourDist target a < hourDist target b ∨
    (hourDist target a = hourDist target b ∧ a.timestamp_utc ≤ b.timestamp_utc)

theorem lexLE_refl (t : ℕ) (a : SObs) : lexLE t a a := by
  unfold lexLE; omega

theorem lexLE_trans {t : ℕ} {a b c : SObs} (h1 : lexLE t a b) (h2 : lexLE t b c) :
    lexLE t a c := by
  unfold lexLE at h1 h2 ⊢; omega

theorem betterB_true {t : ℕ} {a b : SObs} (h : betterB t a b = true) :
    lexLE t a b := by
  simp only [betterB, Bool.or_eq_true, Bool.and_eq_true, beq_iff_eq,
    decide_eq_true_eq] at h
  unfold lexLE; omega

theorem betterB_false {t : ℕ} {a b : SObs} (h : betterB t a b = false) :
    lexLE t b a := by
  simp only [betterB, Bool.or_eq_false_iff, Bool.and_eq_false_iff,
    decide_eq_false_iff_not, beq_eq_false_iff_ne, ne_eq] at h
  unfold lexLE
  omega

theorem bestOf_cons (t : ℕ) (a o : SObs) (l : List SObs) :
    bestOf t a (o :: l) = bestOf t (if betterB t o a then o else a) l := rfl

theorem bestOf_mem (t : ℕ) (l : List SObs) : ∀ a : SObs, bestOf t a l ∈ a :: l := by
  induction l with
  | nil => intro a; simp [bestOf]
  | cons o l ih =>
    intro a
    rw [bestOf_cons]
    cases hb : betterB t o a with
    | false =>
      simp only [hb, Bool.false_eq_true, if_false]
      have h := ih a
      simp only [List.mem_cons] at h ⊢
      tauto
    | true =>
      simp only [hb, if_true]
      have h := ih o
      simp only [List.mem_cons] at h ⊢
      tauto

theorem bestOf_min (t : ℕ) (l : List SObs) :
    ∀ a : SObs, ∀ x ∈ a :: l, lexLE t (bestOf t a l) x := by
  induction l with
  | nil =>
    intro a x hx
    simp only [List.mem_singleton] at hx
    subst hx
    exact lexLE_refl t (bestOf t x [])
  | cons o l ih =>
    intro a x hx
    rw [bestOf_cons]
    rcases List.mem_cons.mp hx with hxa | hx2
    · rw [hxa]
      cases hb : betterB t o a with
      | false =>
        simp only [Bool.false_eq_true, if_false]
        exact ih a a (List.mem_cons_self a l)
      | true =>
        simp only [if_true]
        exact lexLE_trans (ih o o (List.mem_cons_self o l)) (betterB_true hb)
    · rcases List.mem_cons.mp hx2 with hxo | hxl
      · rw [hxo]
        cases hb : betterB t o a with
        | false =>
          simp only [Bool.false_eq_true, if_false]
          exact lexLE_trans (ih a a (List.mem_cons_self a l)) (betterB_false hb)
        | true =>
          simp only [if_true]
          exact ih o o (List.mem_cons_self o l)
      · cases hb : betterB t o a with
        | false =>
          simp only [Bool.false_eq_true, if_false]
          exact ih a x (List.mem_cons_of_mem a hxl)
        | true =>
          simp only [if_true]
          exact ih o x (List.mem_cons_of_mem o hxl)

/-- A concrete stand-in for the fixed `Europe/Paris` projection used in
concrete instances: a constant +60 minute offset (CET). -/
def tzFix : ℤ → ℤ := fun t => t + 60

/-- A normalized observation written back as a raw record with matching
field names (`temperature_C` re-entering as `temperature_raw`, and so
on), for re-normalization. -/
def obsToRaw (o : Obs) : RawRow :=
  { date_utc := match o.date_utc with | some t => .ts t | none => .bad
    station_id := o.station_id
    station_name := o.station_name
    temperature_raw := match o.temperature_C with | some q => .numVal q | none => .absent
    rain_raw := match o.pluie_brute with | some q => .numVal q | none => .absent
    wind_raw := match o.vent_brut with | some q => .numVal q | none => .absent }

/-- A normalized output sequence packaged as a raw DataFrame with all
columns present, for feeding back through the normalizer. -/
def reFrame (l : List Obs) : RawFrame :=
  { hasDate := true, hasStationId := true, hasStationName := true,
    hasTemp := true, hasRain := true, hasWind := true,
    rows := l.map obsToRaw }

/-- The first field in table order whose lowercased name contains one of
the candidate substrings, phrased through `List.find?`. -/
def firstMatch (fields : List SchemaField) (subs : List String) : Option String :=
  (fields.find? (fun f => subs.any (fun s => containsSub (pyLower f.name) s))).map
    SchemaField.name

/-- The first field in table order whose lowercased name contains all of
the candidate substrings, phrased through `List.find?`. -/
def firstMatchAll (fields : List SchemaField) (subs : List String) : Option String :=
  (fields.find? (fun f => subs.all (fun s => containsSub (pyLower f.name) s))).map
    SchemaField.name

/-- The station-id cascade of `guess_columns` written out at claim level:
four prioritized searches, then the refinement applied when the guess
coincides with the station-name guess. -/
def stationIdSpec (fields : List SchemaField) : Option String :=
  let sid0 :=
    pyOr (firstMatchAll fields ["omm", "station", "id"])
      (pyOr (firstMatch fields ["omm", "station"])
        (pyOr (firstMatch fields ["station", "id"]) (firstMatch fields ["omm"])))
  let sname := pyOr (firstMatch fields ["station", "name"]) (firstMatch fields ["station"])
  if sid0 = sname then
    let refine := pyOr (firstMatch fields ["omm"]) (firstMatch fields ["id"])
    if pyTruthy refine then refine else sid0
  else sid0

/-- Column guessing as the claim words it: for each key a single fixed
candidate set, and the value is the first field in table order whose
lowercased name contains one of the candidates. Stated from the claim
text for comparison with the code embedding `guess_columns`. -/
def guess_columns_claimed (fields : List SchemaField) : Option ColsMap :=
  match fields with
  | [] => none
  | _ :: _ =>
    some { date := firstMatch fields ["date", "time", "datetime"],
           station_id := firstMatch fields ["omm", "station", "id"],
           station_name := firstMatch fields ["station", "name"],
           temp := firstMatch fields ["temp", "temperat"],
           rain := firstMatch fields ["rain", "pluie", "precip"],
           wind := firstMatch fields ["wind", "vent", "ff"] }

/-- A raw record whose timestamp cell does not parse. -/
def rowBadTs : RawRow := ⟨.bad, .absent, .absent, .absent, .absent, .absent⟩

/-- A one-row frame whose single timestamp does not parse. -/
def frameBadTs : RawFrame := ⟨true, true, true, true, true, true, [rowBadTs]⟩

/-- A raw record with timestamp 0 and the given raw temperature value. -/
def rowTemp (v : ℚ) : RawRow := ⟨.ts 0, .absent, .absent, .numVal v, .absent, .absent⟩

/-- A one-row frame holding the given raw temperature value. -/
def frameTemp (v : ℚ) : RawFrame := ⟨true, true, true, true, true, true, [rowTemp v]⟩

/-- The two-field schema separating the cascade semantics of
`guess_columns` from the single-candidate-set semantics of the claim. -/
def fieldsRain : List SchemaField := [⟨"pluie_mm"⟩, ⟨"rain_x"⟩]

theorem mem_normalize {tz : ℤ → ℤ} {f : RawFrame} {o : Obs}
    (h : o ∈ normalize_synop_df tz f) : ∃ r ∈ f.rows, normRow tz f r = o := by
  rw [normalize_eq_sort, List.mem_insertionSort] at h
  exact List.mem_map.mp h

theorem normRow_mem {tz : ℤ → ℤ} {f : RawFrame} {r : RawRow} (h : r ∈ f.rows) :
    normRow tz f r ∈ normalize_synop_df tz f := by
  rw [normalize_eq_sort, List.mem_insertionSort]
  exact List.mem_map.mpr ⟨r, h, rfl⟩

theorem sorted_normalize (tz : ℤ → ℤ) (f : RawFrame) :
    List.Sorted obsLE (normalize_synop_df tz f) := by
  rw [normalize_eq_sort]
  exact List.sorted_insertionSort obsLE _

theorem perm_normalize (tz : ℤ → ℤ) (f : RawFrame) :
    (normalize_synop_df tz f).Perm (f.rows.map (normRow tz f)) := by
  rw [normalize_eq_sort]
  exact List.perm_insertionSort obsLE _

theorem find_field_eq_firstMatch (fields : List SchemaField) (subs : List String) :
    find_field fields subs false = firstMatch fields subs := by
  induction fields with
  | nil => rfl
  | cons f rest ih =>
    by_cases h : (subs.any (fun s => containsSub (pyLower f.name) s)) = true
    · simp [find_field, firstMatch, List.find?_cons, h]
    · simp only [Bool.not_eq_true] at h
      simp [find_field, firstMatch, List.find?_cons, h, ih]

theorem find_field_eq_firstMatchAll (fields : List SchemaField) (subs : List String) :
    find_field fields subs true = firstMatchAll fields subs := by
  induction fields with
  | nil => rfl
  | cons f rest ih =>
    by_cases h : (subs.all (fun s => containsSub (pyLower f.name) s)) = true
    · simp [find_field, firstMatchAll, List.find?_cons, h]
    · simp only [Bool.not_eq_true] at h
      simp [find_field, firstMatchAll, List.find?_cons, h, ih]

theorem containsSub_append_middle (a b c : String) :
    containsSub (a ++ b ++ c) b = true := by
  unfold containsSub
  rw [List.any_eq_true]
  refine ⟨a.toList.length, ?_, ?_⟩
  · rw [List.mem_range]
    have h : (a ++ b ++ c).toList = a.toList ++ b.toList ++ c.toList := by
      simp [String.toList]
    rw [h]
    simp only [List.length_append]
    omega
  · have h : (a ++ b ++ c).toList = a.toList ++ (b.toList ++ c.toList) := by
      simp [String.toList]
    rw [h, List.drop_left, List.isPrefixOf_iff_prefix]
    exact List.prefix_append _ _

/-- C1: for every raw temperature value parsed as a number by the
normalizer, a value greater than or equal to 200 is exposed as the value
minus 273.15 and a value strictly below 200 is exposed unchanged; the
normalized row carrying that temperature appears in the output of
`normalize_synop_df`. -/
theorem C1_kelvin_heuristic (tz : ℤ → ℤ) (f : RawFrame) (r : RawRow) (q : ℚ)
    (hT : f.hasTemp = true) (hr : r ∈ f.rows)
    (hq : toNumeric r.temperature_raw = some q) :
    normRow tz f r ∈ normalize_synop_df tz f ∧
    (200 ≤ q → (normRow tz f r).temperature_C = some (q - 273.15)) ∧
    (q < 200 → (normRow tz f r).temperature_C = some q) := by
  refine ⟨normRow_mem hr, ?_, ?_⟩
  · intro h200
    simp [normRow, hT, hq, kelvinHeur, not_lt.mpr h200]
  · intro h200
    simp [normRow, hT, hq, kelvinHeur, h200]

/-- C1 witness: raw 280.0 is exposed as Celsius 6.85 and raw 15.0 is
exposed unchanged. -/
theorem C1_kelvin_heuristic_witness :
    (normRow tzFix (frameTemp 280) (rowTemp 280)).temperature_C = some 6.85 ∧
    (normRow tzFix (frameTemp 15) (rowTemp 15)).temperature_C = some 15 ∧
    normRow tzFix (frameTemp 280) (rowTemp 280) ∈
      normalize_synop_df tzFix (frameTemp 280) := by
  have h280 := C1_kelvin_heuristic tzFix (frameTemp 280) (rowTemp 280) 280 rfl
    (List.mem_singleton.mpr rfl) rfl
  have h15 := C1_kelvin_heuristic tzFix (frameTemp 15) (rowTemp 15) 15 rfl
    (List.mem_singleton.mpr rfl) rfl
  refine ⟨?_, h15.2.2 (by norm_num), h280.1⟩
  rw [h280.2.1 (by norm_num)]
  simp only [Option.some.injEq]
  norm_num

/-- C2: every DailyObservation emitted by the spec-modelled daily reducer
has its chosen observation among the candidates of its calendar day,
minimizing the hour distance to the target hour, with ties broken by the
earliest UTC timestamp; and every calendar day with at least one
candidate is represented in the output. -/
theorem C2_daily_selection (obs : List SObs) (target : ℕ) (ht : target ≤ 23)
    (ds : List DailyObs) (hok : reduceToDaily obs target = .ok ds) :
    (∀ dob ∈ ds,
      dob.chosen ∈ obs ∧ calDay dob.chosen = dob.calendar_day ∧
      dob.hour_distance = hourDist target dob.chosen ∧
      ∀ o ∈ obs, calDay o = dob.calendar_day →
        (hourDist target dob.chosen ≤ hourDist target o ∧
          (hourDist target o = hourDist target dob.chosen →
            dob.chosen.timestamp_utc ≤ o.timestamp_utc))) ∧
    (∀ d : ℤ, (∃ o ∈ obs, calDay o = d) → ∃ dob ∈ ds, dob.calendar_day = d) := by
  have hds : (List.insertionSort (fun a b : ℤ => a ≤ b)
      (obs.map calDay).dedup).filterMap (pickDay target obs) = ds := by
    unfold reduceToDaily at hok
    rw [if_neg (by omega)] at hok
    exact Except.ok.inj hok
  constructor
  · intro dob hmem
    rw [← hds, List.mem_filterMap] at hmem
    obtain ⟨d, _, hp⟩ := hmem
    unfold pickDay at hp
    cases hf : obs.filter (fun o => calDay o == d) with
    | nil =>
      rw [hf] at hp
      exact absurd hp (by simp)
    | cons a l =>
      rw [hf] at hp
      have hdob := Option.some.inj hp
      have hbf : bestOf target a l ∈ obs.filter (fun o => calDay o == d) := by
        rw [hf]
        exact bestOf_mem target l a
      have hbobs := List.mem_filter.mp hbf
      have hday : calDay (bestOf target a l) = d := by
        have := hbobs.2
        simpa using this
      rw [← hdob]
      dsimp only
      refine ⟨hbobs.1, hday, rfl, ?_⟩
      intro o ho hod
      have hof : o ∈ obs.filter (fun o => calDay o == d) := by
        refine List.mem_filter.mpr ⟨ho, ?_⟩
        simpa using hod
      rw [hf] at hof
      have hlex := bestOf_min target l a o hof
      unfold lexLE at hlex
      constructor
      · omega
      · intro heq
        omega
  · intro d hd
    obtain ⟨o, ho, hod⟩ := hd
    have hof : o ∈ obs.filter (fun x => calDay x == d) := by
      refine List.mem_filter.mpr ⟨ho, ?_⟩
      simpa using hod
    cases hf : obs.filter (fun x => calDay x == d) with
    | nil =>
      rw [hf] at hof
      exact absurd hof (by simp)
    | cons a l =>
      refine ⟨⟨d, bestOf target a l, hourDist target (bestOf target a l)⟩, ?_, rfl⟩
      rw [← hds, List.mem_filterMap]
      refine ⟨d, ?_, ?_⟩
      · simp only [List.mem_insertionSort, List.mem_dedup, List.mem_map]
        exact ⟨o, ho, hod⟩
      · unfold pickDay
        rw [hf]

/-- An observation at local hour 10 with the later UTC timestamp. -/
def obsEarly : SObs := ⟨100, 600⟩

/-- An observation at local hour 14 with the earlier UTC timestamp. -/
def obsLate : SObs := ⟨50, 840⟩

/-- C2 witness: with target hour 12 and the two same-day observations at
local hours 10 and 14, both at hour distance 2, the reducer chooses the
one with the earlier UTC timestamp. -/
theorem C2_daily_selection_witness :
    (⟨0, obsLate, 2⟩ : DailyObs).chosen ∈ [obsEarly, obsLate] ∧
    hourDist 12 (⟨0, obsLate, 2⟩ : DailyObs).chosen ≤ hourDist 12 obsEarly ∧
    (⟨0, obsLate, 2⟩ : DailyObs).chosen.timestamp_utc ≤ obsEarly.timestamp_utc := by
  have h := C2_daily_selection [obsEarly, obsLate] 12 (by omega)
    [⟨0, obsLate, 2⟩] rfl
  have h1 := h.1 ⟨0, obsLate, 2⟩ (List.mem_singleton.mpr rfl)
  have h2 := h1.2.2.2 obsEarly (by simp) (by decide)
  exact ⟨h1.1, h2.1, h2.2 (by decide)⟩

/-- C3 (amended): the normalizer drops no row — its output is a
permutation of the per-row normalizations of all input rows — and a row
whose timestamp does not parse is kept with missing timestamp markers. -/
theorem C3_unparseable_kept (tz : ℤ → ℤ) (f : RawFrame) :
    (normalize_synop_df tz f).Perm (f.rows.map (normRow tz f)) ∧
    (∀ r ∈ f.rows, parseTs r.date_utc = none →
      (normRow tz f r).date_utc = none ∧ (normRow tz f r).date_local = none ∧
      normRow tz f r ∈ normalize_synop_df tz f) := by
  refine ⟨perm_normalize tz f, ?_⟩
  intro r hr hparse
  refine ⟨?_, ?_, normRow_mem hr⟩
  · cases hD : f.hasDate <;> simp [normRow, hD, hparse]
  · cases hD : f.hasDate <;> simp [normRow, hD, hparse]

/-- C3 counterexample: a one-row input whose timestamp does not parse
yields a non-empty output containing that row with `NaT` markers, where
the claim predicts the row is dropped and the output is empty. -/
theorem C3_counterexample :
    normalize_synop_df tzFix frameBadTs =
      [⟨none, none, .absent, .absent, none, none, none⟩] ∧
    normalize_synop_df tzFix frameBadTs ≠ [] := by
  have h : normalize_synop_df tzFix frameBadTs =
      [⟨none, none, .absent, .absent, none, none, none⟩] := rfl
  refine ⟨h, ?_⟩
  rw [h]
  simp

/-- C3 witness: the amended statement applied to the concrete one-row
frame with an unparseable timestamp. -/
theorem C3_unparseable_kept_witness :
    (normalize_synop_df tzFix frameBadTs).Perm
      (frameBadTs.rows.map (normRow tzFix frameBadTs)) ∧
    (normRow tzFix frameBadTs rowBadTs).date_utc = none := by
  refine ⟨(C3_unparseable_kept tzFix frameBadTs).1, ?_⟩
  exact ((C3_unparseable_kept tzFix frameBadTs).2 rowBadTs
    (List.mem_singleton.mpr rfl) rfl).1

theorem apiErrMsg_shape (status : ℕ) (url body : String) :
    apiErrMsg status url body =
      "Erreur API mesures (HTTP " ++ toString status ++
        (").\nURL: " ++ url ++ "\nReponse: " ++ body.take 500) := by
  unfold apiErrMsg
  simp [String.append_assoc]

/-- C4 (amended): a non-success HTTP status, or an unparseable response
body, makes the fetch report an error message carrying the HTTP status
and the first 500 characters of the body and return an empty DataFrame
(a normal return, not a raised `RemoteFetchError`); only a transport
failure of `requests.get` propagates as an exception. -/
theorem C4_fetch_error_reporting (status : ℕ) (url body : String)
    (json : Option (List RawRow)) :
    (status ≠ 200 →
      fetchRespond (.resp status url body json) =
        .ok ([], [apiErrMsg status url body]) ∧
      containsSub (apiErrMsg status url body) (toString status) = true ∧
      containsSub (apiErrMsg status url body) (body.take 500) = true) ∧
    fetchRespond (.resp 200 url body none) = .ok ([], [jsonErrMsg]) ∧
    (∀ results, fetchRespond (.resp 200 url body (some results)) = .ok (results, [])) ∧
    (∀ m, fetchRespond (.netFail m) = .error m) := by
  refine ⟨?_, by simp [fetchRespond], fun results => by simp [fetchRespond], fun m => rfl⟩
  intro hst
  refine ⟨by simp [fetchRespond, hst], ?_, ?_⟩
  · rw [apiErrMsg_shape]
    exact containsSub_append_middle _ _ _
  · have h2 := containsSub_append_middle
      ("Erreur API mesures (HTTP " ++ toString status ++ ").\nURL: " ++ url ++
        "\nReponse: ") (body.take 500) ""
    rw [String.append_empty] at h2
    exact h2

/-- C4 counterexample: at HTTP status 500 the fetch returns normally with
an empty DataFrame and a reported message — the outcome is `Except.ok`,
not a raised `RemoteFetchError`. -/
theorem C4_counterexample :
    fetchRespond (.resp 500 "u" "boom" none) =
      .ok ([], [apiErrMsg 500 "u" "boom"]) ∧
    (fetchRespond (.resp 500 "u" "boom" none)).isOk = true := ⟨rfl, rfl⟩

/-- C4 witness: the amended statement applied at status 500. -/
theorem C4_fetch_error_reporting_witness :
    fetchRespond (.resp 500 "u" "boom" none) =
      .ok ([], [apiErrMsg 500 "u" "boom"]) ∧
    containsSub (apiErrMsg 500 "u" "boom") (toString (500 : ℕ)) = true := by
  have h := (C4_fetch_error_reporting 500 "u" "boom" none).1 (by omega)
  exact ⟨h.1, h.2.1⟩

theorem renorm_row (tz : ℤ → ℤ) (l : List Obs) (o : Obs)
    (hloc : o.date_local = o.date_utc.map tz)
    (htemp : ∀ q, o.temperature_C = some q → q < 200) :
    normRow tz (reFrame l) (obsToRaw o) = o := by
  obtain ⟨du, dl, si, sn, tc, pb, vb⟩ := o
  simp only at hloc htemp
  subst hloc
  rcases du with _ | t <;> rcases tc with _ | q <;> rcases pb with _ | p <;>
    rcases vb with _ | v <;>
    simp_all [normRow, obsToRaw, reFrame, toNumeric, parseTs, kelvinHeur]

/-- C5 (amended): re-normalizing the output of the normalizer, fed back
as raw input with matching field names, returns it unchanged provided
each normalized temperature lies below the 200-degree Kelvin threshold;
otherwise the Kelvin heuristic fires again on the already-converted
value. -/
theorem C5_normalize_idempotent (tz : ℤ → ℤ) (f : RawFrame)
    (h : ∀ o ∈ normalize_synop_df tz f, ∀ q, o.temperature_C = some q → q < 200) :
    normalize_synop_df tz (reFrame (normalize_synop_df tz f)) =
      normalize_synop_df tz f := by
  have hmap : (reFrame (normalize_synop_df tz f)).rows.map
      (normRow tz (reFrame (normalize_synop_df tz f))) = normalize_synop_df tz f := by
    show ((normalize_synop_df tz f).map obsToRaw).map _ = _
    rw [List.map_map]
    have hpt : ∀ o ∈ normalize_synop_df tz f,
        (normRow tz (reFrame (normalize_synop_df tz f)) ∘ obsToRaw) o = id o := by
      intro o ho
      obtain ⟨r, _, hro⟩ := mem_normalize ho
      have hloc : o.date_local = o.date_utc.map tz := by
        rw [← hro]
        rfl
      exact renorm_row tz _ o hloc (h o ho)
    rw [List.map_congr_left hpt, List.map_id]
  rw [normalize_eq_sort tz (reFrame (normalize_synop_df tz f)), hmap]
  exact List.Sorted.insertionSort_eq (sorted_normalize tz f)

/-- C5 counterexample: a raw temperature of 500 normalizes to 226.85,
which is above the threshold, so a second pass converts it again —
re-normalization is not the identity on this output. -/
theorem C5_counterexample :
    normalize_synop_df tzFix (reFrame (normalize_synop_df tzFix (frameTemp 500))) ≠
      normalize_synop_df tzFix (frameTemp 500) := by
  have h1 : normalize_synop_df tzFix (frameTemp 500) =
      [⟨some 0, some 60, .absent, .absent, some (500 - 273.15), none, none⟩] := rfl
  have hlt : ¬((500 : ℚ) - 273.15 < 200) := by norm_num
  have h2 : normalize_synop_df tzFix
      (reFrame [⟨some 0, some 60, .absent, .absent, some (500 - 273.15), none, none⟩]) =
      [⟨some 0, some 60, .absent, .absent, some (500 - 273.15 - 273.15), none, none⟩] := by
    rw [normalize_eq_sort]
    simp [reFrame, obsToRaw, normRow, parseTs, toNumeric, kelvinHeur, tzFix, hlt,
      List.insertionSort, List.orderedInsert]
  rw [h1, h2]
  intro h
  have h4 := congrArg Obs.temperature_C (List.head_eq_of_cons_eq h)
  simp only [Option.some.injEq] at h4
  norm_num at h4

/-- C5 witness: idempotence holds on the output of normalizing a raw
temperature of 280, whose Celsius value 6.85 is below the threshold. -/
theorem C5_normalize_idempotent_witness :
    normalize_synop_df tzFix (reFrame (normalize_synop_df tzFix (frameTemp 280))) =
      normalize_synop_df tzFix (frameTemp 280) := by
  apply C5_normalize_idempotent
  intro o ho q hq
  have h1 : normalize_synop_df tzFix (frameTemp 280) =
      [⟨some 0, some 60, .absent, .absent, some (280 - 273.15), none, none⟩] := rfl
  rw [h1] at ho
  simp only [List.mem_singleton] at ho
  subst ho
  simp only [Option.some.injEq] at hq
  rw [← hq]
  norm_num

/-- C6: a raw row whose temperature, precipitation, or wind-speed cell is
missing or not numeric yields `none` — the missing-value marker — for
that field of the normalized observation (never zero; the embedding is a
total function, so no exception is raised), and the row still appears in
the output. -/
theorem C6_missing_numeric (tz : ℤ → ℤ) (f : RawFrame) (r : RawRow)
    (hr : r ∈ f.rows) :
    (toNumeric r.temperature_raw = none → (normRow tz f r).temperature_C = none) ∧
    (toNumeric r.rain_raw = none → (normRow tz f r).pluie_brute = none) ∧
    (toNumeric r.wind_raw = none → (normRow tz f r).vent_brut = none) ∧
    normRow tz f r ∈ normalize_synop_df tz f := by
  refine ⟨?_, ?_, ?_, normRow_mem hr⟩
  · intro h
    cases hT : f.hasTemp <;> simp [normRow, hT, h, kelvinHeur]
  · intro h
    cases hT : f.hasRain <;> simp [normRow, hT, h]
  · intro h
    cases hT : f.hasWind <;> simp [normRow, hT, h]

/-- C6 witness: the all-missing row normalizes with `none` in each
numeric field. -/
theorem C6_missing_numeric_witness :
    (normRow tzFix frameBadTs rowBadTs).temperature_C = none ∧
    (normRow tzFix frameBadTs rowBadTs).pluie_brute = none ∧
    (normRow tzFix frameBadTs rowBadTs).vent_brut = none := by
  have h := C6_missing_numeric tzFix frameBadTs rowBadTs (List.mem_singleton.mpr rfl)
  exact ⟨h.1 rfl, h.2.1 rfl, h.2.2.1 rfl⟩

/-- C7: the sequence returned by the normalizer is sorted ascending by
the local timestamp (missing local timestamps ordered last, as pandas
places `NaT`). -/
theorem C7_output_sorted (tz : ℤ → ℤ) (f : RawFrame) :
    List.Sorted obsLE (normalize_synop_df tz f) := by
  rw [normalize_eq_sort]
  exact List.sorted_insertionSort obsLE _

/-- C8: normalizing an empty input returns an empty sequence (and, the
embedding being total, raises no error). -/
theorem C8_empty_input (tz : ℤ → ℤ) (f : RawFrame) (h : f.rows = []) :
    normalize_synop_df tz f = [] := by
  rw [normalize_eq_sort, h]
  rfl

/-- C8 witness: the concrete empty frame normalizes to the empty list. -/
theorem C8_empty_input_witness :
    normalize_synop_df tzFix ⟨true, true, true, true, true, true, []⟩ = [] :=
  C8_empty_input tzFix ⟨true, true, true, true, true, true, []⟩ rfl

/-- C9: when a date column and a station-id column were detected, the
query parameters hold a `where` filter combining station-id equality with
an inclusive timestamp range whose bounds are the ISO-8601
`YYYY-MM-DDTHH:MM:SSZ` renderings of the requested instants, an
`order_by` ascending on the timestamp field, and a `limit` equal to the
row limit of the caller. -/
theorem C9_query_params (c : ColsMap) (stationId : String) (s e : DT)
    (lim : ℕ) (dc ic : String) (hd : c.date = some dc)
    (hdne : dc.isEmpty = false) (hi : c.station_id = some ic)
    (hine : ic.isEmpty = false) :
    (buildParams (some c) stationId s e lim).map Params.whereClause =
      some (bt ++ ic ++ bt ++ " = " ++ sqch ++ stationId ++ sqch ++ " AND " ++
        bt ++ dc ++ bt ++ " >= " ++ sqch ++ isoZ s ++ sqch ++ " AND " ++
        bt ++ dc ++ bt ++ " <= " ++ sqch ++ isoZ e ++ sqch) ∧
    (buildParams (some c) stationId s e lim).map Params.orderBy =
      some (bt ++ dc ++ bt ++ " ASC") ∧
    (buildParams (some c) stationId s e lim).map Params.limit = some lim := by
  obtain ⟨cdate, csid, csname, ctemp, crain, cwind⟩ := c
  simp only at hd hi
  subst hd
  subst hi
  simp [buildParams, hdne, hine]

/-- Concrete column mapping for the C9 witness. -/
def cmW : ColsMap :=
  ⟨some "date", some "id_omm_station", some "nom_station", some "tc",
    some "rr3", some "ff_moyen"⟩

/-- C9 witness: the parameters built for station 07110 over a concrete
UTC range, with the ISO bound rendered explicitly. -/
theorem C9_query_params_witness :
    (buildParams (some cmW) "07110" ⟨2024, 1, 2, 3, 4, 5⟩ ⟨2024, 1, 3, 0, 0, 0⟩
        80).map Params.whereClause =
      some (bt ++ "id_omm_station" ++ bt ++ " = " ++ sqch ++ "07110" ++ sqch ++
        " AND " ++ bt ++ "date" ++ bt ++ " >= " ++ sqch ++
        isoZ ⟨2024, 1, 2, 3, 4, 5⟩ ++ sqch ++ " AND " ++ bt ++ "date" ++ bt ++
        " <= " ++ sqch ++ isoZ ⟨2024, 1, 3, 0, 0, 0⟩ ++ sqch) ∧
    (buildParams (some cmW) "07110" ⟨2024, 1, 2, 3, 4, 5⟩ ⟨2024, 1, 3, 0, 0, 0⟩
        80).map Params.limit = some 80 ∧
    isoZ ⟨2024, 1, 2, 3, 4, 5⟩ = "2024-01-02T03:04:05Z" := by
  have h := C9_query_params cmW "07110" ⟨2024, 1, 2, 3, 4, 5⟩ ⟨2024, 1, 3, 0, 0, 0⟩
    80 "date" "id_omm_station" rfl rfl rfl rfl
  exact ⟨h.1, h.2.2, by decide⟩

/-- C10 (amended): column guessing returns the empty mapping on an empty
schema, and otherwise a mapping with exactly the six keys, each computed
by a prioritized cascade of first-match-in-table-order searches (the
station-id cascade starting with an all-substrings search and ending with
a refinement when it collides with the station-name guess), rather than a
single first-match over one candidate set per key. -/
theorem C10_guess_columns (fields : List SchemaField) :
    (fields = [] → guess_columns fields = none) ∧
    (fields ≠ [] →
      guess_columns fields = some
        { date := firstMatch fields ["date", "time", "datetime"],
          station_id := stationIdSpec fields,
          station_name := pyOr (firstMatch fields ["station", "name"])
            (firstMatch fields ["station"]),
          temp := pyOr (firstMatch fields ["temp"]) (firstMatch fields ["temperat"]),
          rain := pyOr (firstMatch fields ["rain"])
            (pyOr (firstMatch fields ["pluie"]) (firstMatch fields ["precip"])),
          wind := pyOr (firstMatch fields ["wind"])
            (pyOr (firstMatch fields ["vent"]) (firstMatch fields ["ff"])) }) := by
  constructor
  · intro h
    subst h
    rfl
  · intro h
    cases fields with
    | nil => exact absurd rfl h
    | cons f rest =>
      simp only [guess_columns, find_field_eq_firstMatch,
        find_field_eq_firstMatchAll, stationIdSpec]

/-- C10 counterexample: on the schema `[pluie_mm, rain_x]` the code
returns `rain_x` for the rain key (the whole-table search for `rain` runs
before the one for `pluie`), while the claimed
first-field-matching-any-candidate rule yields `pluie_mm`. -/
theorem C10_counterexample :
    (guess_columns fieldsRain).map ColsMap.rain = some (some "rain_x") ∧
    (guess_columns_claimed fieldsRain).map ColsMap.rain = some (some "pluie_mm") ∧
    guess_columns fieldsRain ≠ guess_columns_claimed fieldsRain := by
  refine ⟨by decide, by decide, by decide⟩

/-- C10 witness: the amended statement evaluated on the concrete
two-field schema. -/
theorem C10_guess_columns_witness :
    guess_columns fieldsRain = some
      { date := firstMatch fieldsRain ["date", "time", "datetime"],
        station_id := stationIdSpec fieldsRain,
        station_name := pyOr (firstMatch fieldsRain ["station", "name"])
          (firstMatch fieldsRain ["station"]),
        temp := pyOr (firstMatch fieldsRain ["temp"]) (firstMatch fieldsRain ["temperat"]),
        rain := pyOr (firstMatch fieldsRain ["rain"])
          (pyOr (firstMatch fieldsRain ["pluie"]) (firstMatch fieldsRain ["precip"])),
        wind := pyOr (firstMatch fieldsRain ["wind"])
          (pyOr (firstMatch fieldsRain ["vent"]) (firstMatch fieldsRain ["ff"])) } :=
  (C10_guess_columns fieldsRain).2 (by decide)
